import Mathlib

/-!
Verification of the Anytype Bibliography Manager core against its
natural-language specification.

The Python modules `models.py`, `services/metadata.py` and
`services/dedup.py` are shallowly embedded below.  Python strings are
modelled as Lean `String` (lists of characters), Python `int` as `Int`,
optional values as `Option`, dictionaries with a known key set as
structures, and side-effecting remote/publisher calls as explicit event
traces.  Python-specific behaviours that matter to the statements
(truthiness of strings, `str(None) = "None"`, dict insertion order,
`rstrip(',')`) are modelled explicitly where they occur.
-/

namespace AnytypeBib

/-! ### Characters, digits, decimal representation

Helpers shared by the embedded functions: the ASCII alphanumeric test
used by the regexes `[^A-Za-z0-9]+` and `[A-Za-z0-9]+` in `models.py`,
and the decimal rendering of a Python `int` (used by `str(self.year)`).
-/

def isAlnum (c : Char) : Bool :=
  (65 ≤ c.toNat && c.toNat ≤ 90) || (97 ≤ c.toNat && c.toNat ≤ 122) ||
    (48 ≤ c.toNat && c.toNat ≤ 57)

def digitChar (n : Nat) : Char :=
  match n with
  | 0 => '0' | 1 => '1' | 2 => '2' | 3 => '3' | 4 => '4'
  | 5 => '5' | 6 => '6' | 7 => '7' | 8 => '8' | 9 => '9'
  | _ => '*'

/-- Most-significant-first decimal digits of `n`, with explicit fuel so the
kernel can evaluate it; fuel `n` suffices for value `n`. -/
def digitsGo : Nat → Nat → List Char
  | _, 0 => []
  | 0, _ + 1 => []
  | f + 1, m + 1 => digitsGo f ((m + 1) / 10) ++ [digitChar ((m + 1) % 10)]

def natDigits (n : Nat) : List Char :=
  if n = 0 then ['0'] else digitsGo n n

/-- Model of Python `str(i)` for an `int`. -/
def intToString (i : Int) : String :=
  if i < 0 then String.mk ('-' :: natDigits i.natAbs) else String.mk (natDigits i.toNat)

/-! ### Unicode accent folding (model of `unicodedata` as used in `models.py`)

`Author.family_ascii` runs NFD decomposition, drops combining marks
(category `Mn`) and then drops non-ASCII characters.  The model carries a
canonical-decomposition table for the precomposed Latin letters; every
character outside the table (in particular every ASCII character, which
has no canonical decomposition) decomposes to itself.  Combining marks
are modelled by the Combining Diacritical Marks block U+0300–U+036F,
which contains every mark produced by the table.
-/

def markGrave : Char := Char.ofNat 768
def markAcute : Char := Char.ofNat 769
def markCirc : Char := Char.ofNat 770
def markTilde : Char := Char.ofNat 771
def markDiaer : Char := Char.ofNat 776
def markRing : Char := Char.ofNat 778
def markCedilla : Char := Char.ofNat 807

def decompTable : List (Char × List Char) :=
  [ ('à', ['a', markGrave]), ('á', ['a', markAcute]), ('â', ['a', markCirc]),
    ('ã', ['a', markTilde]), ('ä', ['a', markDiaer]), ('å', ['a', markRing]),
    ('è', ['e', markGrave]), ('é', ['e', markAcute]), ('ê', ['e', markCirc]),
    ('ë', ['e', markDiaer]),
    ('ì', ['i', markGrave]), ('í', ['i', markAcute]), ('î', ['i', markCirc]),
    ('ï', ['i', markDiaer]),
    ('ñ', ['n', markTilde]),
    ('ò', ['o', markGrave]), ('ó', ['o', markAcute]), ('ô', ['o', markCirc]),
    ('õ', ['o', markTilde]), ('ö', ['o', markDiaer]),
    ('ù', ['u', markGrave]), ('ú', ['u', markAcute]), ('û', ['u', markCirc]),
    ('ü', ['u', markDiaer]),
    ('ý', ['y', markAcute]), ('ç', ['c', markCedilla]),
    ('À', ['A', markGrave]), ('Á', ['A', markAcute]), ('Ä', ['A', markDiaer]),
    ('È', ['E', markGrave]), ('É', ['E', markAcute]),
    ('Ì', ['I', markGrave]), ('Í', ['I', markAcute]),
    ('Ñ', ['N', markTilde]),
    ('Ò', ['O', markGrave]), ('Ó', ['O', markAcute]), ('Ö', ['O', markDiaer]),
    ('Ù', ['U', markGrave]), ('Ú', ['U', markAcute]), ('Ü', ['U', markDiaer]),
    ('Ç', ['C', markCedilla]) ]

def decomposeChar (c : Char) : List Char :=
  match decompTable.lookup c with
  | some l => l
  | none => [c]

/-- Model of `unicodedata.normalize("NFD", s)` on the character list. -/
def nfdChars (l : List Char) : List Char :=
  (l.map decomposeChar).flatten

/-- Model of `unicodedata.category(ch) == "Mn"`. -/
def isMn (c : Char) : Bool :=
  768 ≤ c.toNat && c.toNat ≤ 879

/-- Model of membership in the ASCII range kept by `encode("ascii", "ignore")`. -/
def isAsciiChar (c : Char) : Bool :=
  c.toNat < 128

/-- The folding pipeline of `Author.family_ascii` before the empty-string
fallback: NFD, strip combining marks, drop non-ASCII. -/
def foldChars (l : List Char) : List Char :=
  ((nfdChars l).filter (fun c => !isMn c)).filter isAsciiChar

/-! ### `models.py` -/

structure Author where
  family : String
  given : Option String := none
  orcid : Option String := none
deriving DecidableEq, Repr

def Author.display_name (a : Author) : String :=
  match a.given with
  | some g => if g = "" then a.family else a.family ++ ", " ++ g
  | none => a.family

def Author.family_ascii (a : Author) : String :=
  let ascii_name := String.mk (foldChars a.family.data)
  if ascii_name = "" then a.family else ascii_name

/-- Record model; the field `raw` (an opaque payload mapping never read by the logic) is omitted. -/
structure BibliographicRecord where
  doi : String
  title : String
  entry_type : String
  year : Int
  authors : List Author
  journal : Option String := none
  short_journal : Option String := none
  publisher : Option String := none
deriving DecidableEq, Repr

def BibliographicRecord.first_author (r : BibliographicRecord) : Option Author :=
  r.authors.head?

def BibliographicRecord.formatted_authors (r : BibliographicRecord) : String :=
  String.intercalate " and " (r.authors.map Author.display_name)

/-- Model of `BibliographicRecord._title_first_word`: the first match of
`[A-Za-z0-9]+`, or the literal `"Title"` when there is none. -/
def title_first_word (title : String) : String :=
  let run := (title.data.dropWhile (fun c => !isAlnum c)).takeWhile isAlnum
  if run = [] then "Title" else String.mk run

/-- Model of `BibliographicRecord.citation_key`: fold the first author's family name
(or `"unknown"`), append the decimal year and the first word of the title,
then delete every character matched by `[^A-Za-z0-9]+`. -/
def BibliographicRecord.citation_key (r : BibliographicRecord) : String :=
  let last_name := match r.authors with
    | [] => "unknown"
    | a :: _ => a.family_ascii
  let combined := last_name ++ intToString r.year ++ title_first_word r.title
  String.mk (combined.data.filter isAlnum)

/-! ### Python string primitives used by `metadata.py` and `dedup.py`

`pyStrip` models `str.strip()`, `pyLower` models `str.lower()` (on the
ASCII letters, the only ones the embedded call sites feed it), `pyInt?`
models `int(str)` on optionally-signed decimal input, and `pyStr` models
`str(x)` on an optional string (`str(None)` is the text `"None"`).
-/

def pyStrip (s : String) : String :=
  String.mk (((s.data.dropWhile Char.isWhitespace).reverse.dropWhile Char.isWhitespace).reverse)

def lowerChar (c : Char) : Char :=
  if 65 ≤ c.toNat ∧ c.toNat ≤ 90 then Char.ofNat (c.toNat + 32) else c

def pyLower (s : String) : String :=
  String.mk (s.data.map lowerChar)

def natOfDigits (l : List Char) : Option Nat :=
  match l with
  | [] => none
  | _ => l.foldl
      (fun acc c => match acc with
        | none => none
        | some a =>
            if 48 ≤ c.toNat ∧ c.toNat ≤ 57 then some (a * 10 + (c.toNat - 48)) else none)
      (some 0)

def pyInt? (s : String) : Option Int :=
  match s.data with
  | '-' :: rest => (natOfDigits rest).map (fun n => -(n : Int))
  | '+' :: rest => (natOfDigits rest).map (fun n => (n : Int))
  | l => (natOfDigits l).map (fun n => (n : Int))

def pyStr : Option String → String
  | none => "None"
  | some s => s

/-- Python truthiness of an optional string: `none` and `""` are falsy. -/
def truthyOpt : Option String → Option String
  | some s => if s = "" then none else some s
  | none => none

/-! ### `services/dedup.py` -/

/-- The fields of `config.Settings` read by the duplicate detector. -/
structure Settings where
  anytype_field_doi : String
  anytype_field_authors : String
  anytype_author_separator : String
deriving DecidableEq, Repr

/-- A value stored under a key of a raw result's `fields` dict: a string,
a list of (already stringified) parts, or anything else. -/
inductive FieldVal where
  | fstr (s : String)
  | flist (l : List String)
  | fnone
deriving DecidableEq, Repr

/-- A raw remote search result.  `id` is the value under the `"id"` key
when present.  `fields = some d` models a dict value under `"fields"`
(a missing `"fields"` key is `some []`, matching `obj.get("fields", {})`);
`fields = none` models a non-dict value there. -/
structure RawObject where
  id : Option String
  name : Option String
  title : Option String
  fields : Option (List (String × FieldVal))
deriving DecidableEq, Repr

structure DuplicateCandidate where
  object_id : String
  title : Option String := none
  doi : Option String := none
  authors : List String := []
deriving DecidableEq, Repr

/-- The candidate built from one raw result inside
`AnytypeDuplicateDetector._extend_candidates`, given the already computed
`str(obj.get("id"))`. -/
def candidateOf (st : Settings) (obj : RawObject) (oid : String) : DuplicateCandidate :=
  let title := match truthyOpt obj.name with
    | some s => some s
    | none => truthyOpt obj.title
  let doi := match obj.fields with
    | some d => match d.lookup st.anytype_field_doi with
      | some (FieldVal.fstr s) => if s = "" then none else some s
      | _ => none
    | none => none
  let authors := match obj.fields with
    | some d => match d.lookup st.anytype_field_authors with
      | some (FieldVal.fstr s) => (s.splitOn st.anytype_author_separator).map pyStrip
      | some (FieldVal.flist l) => l
      | _ => []
    | none => []
  ⟨oid, title, doi, authors⟩

/-- One iteration of the loop in `_extend_candidates`: skip a result whose
`str(obj.get("id"))` was already seen, otherwise record the id and append
the mapped candidate. -/
def extendStep (st : Settings) (acc : List DuplicateCandidate × List String)
    (obj : RawObject) : List DuplicateCandidate × List String :=
  let object_id := pyStr obj.id
  if object_id ∈ acc.2 then acc
  else (acc.1 ++ [candidateOf st obj object_id], acc.2 ++ [object_id])

def extendCandidates (st : Settings) (acc : List DuplicateCandidate × List String)
    (raws : List RawObject) : List DuplicateCandidate × List String :=
  raws.foldl (extendStep st) acc

/-- One issued remote search. -/
inductive SearchCall where
  | byProperty (key value : String) (limit : Nat)
  | byText (query : String) (limit : Nat)
deriving DecidableEq, Repr

/-- The `AnytypeClient` search surface, abstracted as response functions. -/
structure SearchClient where
  search_by_property : String → String → Nat → List RawObject
  search_by_text : String → Nat → List RawObject

/-- The set of accent-folded lower-cased author family names
(`{author.family_ascii().lower() for author in record.authors}`), as a
first-occurrence-ordered duplicate-free list; Python's set iteration
order is unspecified, the model fixes this one. -/
def authorNames (r : BibliographicRecord) : List String :=
  (r.authors.map (fun a => pyLower a.family_ascii)).eraseDups

/-- Model of `AnytypeDuplicateDetector.find_duplicates`, instrumented with the
trace of searches it issues. -/
def find_duplicates_trace (client : SearchClient) (st : Settings)
    (r : BibliographicRecord) : List DuplicateCandidate × List SearchCall :=
  let acc0 : List DuplicateCandidate × List String := ([], [])
  let step1 :=
    if r.doi ≠ "" then
      (extendCandidates st acc0 (client.search_by_property st.anytype_field_doi r.doi 5),
       [SearchCall.byProperty st.anytype_field_doi r.doi 5])
    else (acc0, ([] : List SearchCall))
  let names := authorNames r
  let step2 :=
    if names ≠ [] then
      (extendCandidates st step1.1 (client.search_by_text (String.intercalate " " names) 5),
       step1.2 ++ [SearchCall.byText (String.intercalate " " names) 5])
    else step1
  let step3 :=
    if step2.1.1 = [] ∧ r.title ≠ "" then
      (extendCandidates st step2.1 (client.search_by_text r.title 3),
       step2.2 ++ [SearchCall.byText r.title 3])
    else step2
  (step3.1.1, step3.2)

def find_duplicates (client : SearchClient) (st : Settings)
    (r : BibliographicRecord) : List DuplicateCandidate :=
  (find_duplicates_trace client st r).1

/-! ### `services/metadata.py` -/

/-- Model of `str.rstrip(',')`: drop every trailing comma. -/
def rstripComma (s : String) : String :=
  String.mk ((s.data.reverse.dropWhile (fun c => c == ',')).reverse)

/-- Replace the last line: `lines[-1] = f(lines[-1])`. -/
def modifyLast (f : String → String) : List String → List String
  | [] => []
  | [x] => [f x]
  | x :: y :: xs => x :: modifyLast f (y :: xs)

/-- The insertion-ordered `fields` dict built by
`DOIIngestionService.generate_bibtex`. -/
def bibtexFieldPairs (r : BibliographicRecord) : List (String × String) :=
  [("title", "\x7b\x7b " ++ r.title ++ " \x7d\x7d"),
   ("author", r.formatted_authors),
   ("year", intToString r.year),
   ("doi", r.doi)]
  ++ (match r.journal with
      | some j => if j = "" then [] else [("journal", j)]
      | none => [])
  ++ (match r.publisher with
      | some p => if p ≠ "" ∧ r.entry_type = "book" then [("publisher", p)] else []
      | none => [])

/-- The `lines` list of `generate_bibtex` just before `"\n".join`. -/
def bibtex_lines (r : BibliographicRecord) : List String :=
  let header := "@" ++ r.entry_type ++ "\x7b" ++ r.citation_key ++ ","
  let fieldLines := (bibtexFieldPairs r).filterMap
    (fun kv => if kv.2 = "" then none else some ("  " ++ kv.1 ++ " = \x7b" ++ kv.2 ++ "\x7d,"))
  let lines := header :: fieldLines
  let lines := if lines.length > 1 then modifyLast rstripComma lines else lines
  lines ++ ["\x7d"]

def generate_bibtex (r : BibliographicRecord) : String :=
  String.intercalate "\n" (bibtex_lines r)

/-- The three date fields probed by `DOIIngestionService._extract_year`;
each component models `message.get(key, {}).get("date-parts")`. -/
structure CrossrefMessage where
  publishedPrint : Option (List (List Int))
  publishedOnline : Option (List (List Int))
  issued : Option (List (List Int))
deriving DecidableEq, Repr

/-- The per-key test-and-read of `_extract_year`: the key yields a year
exactly when its `date-parts` is a non-empty list whose first element is
a non-empty list; the year is the first component. -/
def yearOf : Option (List (List Int)) → Option Int
  | some ((y :: _) :: _) => some y
  | _ => none

def extract_year (m : CrossrefMessage) : Except String Int :=
  match yearOf m.publishedPrint with
  | some y => Except.ok y
  | none => match yearOf m.publishedOnline with
    | some y => Except.ok y
    | none => match yearOf m.issued with
      | some y => Except.ok y
      | none => Except.error "Year information missing in CrossRef response"

/-- An operator decision produced by `_prompt_duplicate_action`. -/
inductive DupAction where
  | abort
  | createNew
  | useExisting (c : DuplicateCandidate)
deriving DecidableEq, Repr

/-- Model of `DOIIngestionService._prompt_duplicate_action`, with the operator
modelled as a scripted input list consumed one prompt at a time; `none`
means the script ran out while the loop still wanted input. -/
def prompt_duplicate_action (cands : List DuplicateCandidate) :
    List String → Option (DupAction × List String)
  | [] => none
  | choice :: rest =>
    let c := pyLower (pyStrip choice)
    if c = "a" ∨ c = "abort" then some (DupAction.abort, rest)
    else if c = "c" ∨ c = "create" then some (DupAction.createNew, rest)
    else if c = "u" ∨ c = "use" then
      match rest with
      | [] => none
      | idxRaw :: rest2 =>
        match pyInt? (pyStrip idxRaw) with
        | none => prompt_duplicate_action cands rest2
        | some i =>
          if 1 ≤ i ∧ i ≤ (cands.length : Int) then
            match cands.get? (i - 1).toNat with
            | some cand => some (DupAction.useExisting cand, rest2)
            | none => none
          else prompt_duplicate_action cands rest2
    else prompt_duplicate_action cands rest

/-- A remote mutation performed through the publisher. -/
inductive PubEvent where
  | create (bibtex : String)
  | update (object_id : String) (bibtex : String)
  | attach (object_id : String) (pdf : String)
deriving DecidableEq, Repr

def attachEvents (oid : String) (pdf : Option String) : List PubEvent :=
  match pdf with
  | some p => [PubEvent.attach oid p]
  | none => []

/-- Model of `DOIIngestionService.publish_to_anytype`, with the publisher's remote
calls recorded as a trace.  `createdId` is the `id` field of the payload
the publisher returns from `create_reference`; `detector` stands for
`duplicate_detector.find_duplicates`.  The result is `none` only when the
scripted operator input is exhausted mid-prompt. -/
def publish_to_anytype (detector : BibliographicRecord → List DuplicateCandidate)
    (createdId : String) (r : BibliographicRecord) (bibtex : String)
    (pdf : Option String) (inputs : List String) : Option (List PubEvent) :=
  let createPath : List PubEvent := PubEvent.create bibtex :: attachEvents createdId pdf
  let cands := detector r
  if cands = [] then some createPath
  else
    match prompt_duplicate_action cands inputs with
    | none => none
    | some (DupAction.abort, _) => some []
    | some (DupAction.useExisting c, _) =>
        some (PubEvent.update c.object_id bibtex :: attachEvents c.object_id pdf)
    | some (DupAction.createNew, _) => some createPath

/-! ### Specification-side definitions

These restate, in the specification's own words, the derivations whose
claims are refinement statements; they are compared with the embedded
code above by the claim theorems.
-/

/-- Spec: strip every character that is not `[A-Za-z0-9]`. -/
def spec_strip_non_alnum (s : String) : String :=
  String.mk (s.data.filter isAlnum)

/-- Spec: the first maximal alphanumeric run of the title, or the literal
fallback `"Title"` when the title has no alphanumeric character. -/
def spec_first_run (title : String) : String :=
  match title.data.dropWhile (fun c => !isAlnum c) with
  | [] => "Title"
  | c :: cs => String.mk ((c :: cs).takeWhile isAlnum)

/-- Spec §4.2: accent-folded family of the first author (or `"unknown"`),
then the decimal year, then the first alphanumeric run of the title, with
every character outside `[A-Za-z0-9]` stripped from the concatenation. -/
def spec_citation_key (r : BibliographicRecord) : String :=
  spec_strip_non_alnum
    ((match r.first_author with
      | some a => a.family_ascii
      | none => "unknown") ++ intToString r.year ++ spec_first_run r.title)

/-- Spec §4.2: the present fields in the fixed order title, author, year,
doi, journal, publisher; empty or none-valued fields omitted; publisher
only for entry type `book`; title wrapped in double braces. -/
def spec_fields (r : BibliographicRecord) : List (String × String) :=
  ([("title", "\x7b\x7b " ++ r.title ++ " \x7d\x7d"),
    ("author", r.formatted_authors),
    ("year", intToString r.year),
    ("doi", r.doi)]
   ++ (match r.journal with | some j => [("journal", j)] | none => [])
   ++ (match r.publisher with
       | some p => if r.entry_type = "book" then [("publisher", p)] else []
       | none => [])).filter (fun kv => kv.2 ≠ "")

/-- Append the field separator `,` to every line but the last. -/
def commaSeparated : List String → List String
  | [] => []
  | [x] => [x]
  | x :: y :: xs => (x ++ ",") :: commaSeparated (y :: xs)

/-- Spec §4.2/§6: `@<entry_type>{<citation_key>,`, one indented
`key = {value}` line per present field with a trailing comma on every
field line except the last, closed by `}`. -/
def spec_bibtex (r : BibliographicRecord) : String :=
  let header := "@" ++ r.entry_type ++ "\x7b" ++ r.citation_key ++ ","
  let fieldLines := (spec_fields r).map
    (fun kv => "  " ++ kv.1 ++ " = \x7b" ++ kv.2 ++ "\x7d")
  String.intercalate "\n" ((header :: commaSeparated fieldLines) ++ ["\x7d"])

/-- Spec §4.1: probe the candidate date fields in priority order; a field
yields the first component of the first entry of its `date-parts`. -/
def spec_year_probe : List (Option (List (List Int))) → Option Int
  | [] => none
  | f :: rest =>
    match (f.bind List.head?).bind List.head? with
    | some y => some y
    | none => spec_year_probe rest

def spec_extract_year (m : CrossrefMessage) : Except String Int :=
  match spec_year_probe [m.publishedPrint, m.publishedOnline, m.issued] with
  | some y => Except.ok y
  | none => Except.error "Year information missing in CrossRef response"

/-! ### Concrete sample data used by the claims -/

/-- The record of spec §8: first author family `"Doe"`, year 2024, title
`"Understanding Quantum Fields"`. -/
def doeRecord : BibliographicRecord :=
  ⟨"10.1000/test", "Understanding Quantum Fields", "article", 2024,
    [⟨"Doe", some "Jane", none⟩], none, none, none⟩

/-- The two-author serialization example of spec §8. -/
def doeSmithRecord : BibliographicRecord :=
  ⟨"10.1000/test", "Understanding Quantum Fields", "article", 2024,
    [⟨"Doe", some "Jane", none⟩, ⟨"Smith", some "John", none⟩],
    some "Journal of Testing", none, none⟩

/-- A raw remote result with no `id` field. -/
def strayObject : RawObject := ⟨none, some "Stray result", none, some []⟩

/-- A client whose DOI property search returns exactly the stray result
and whose free-text search returns nothing. -/
def strayClient : SearchClient := ⟨fun _ _ _ => [strayObject], fun _ _ => []⟩

def sampleSettings : Settings := ⟨"doi", "authors", "; "⟩

/-- A record with a DOI and no authors, so only the DOI tier runs. -/
def strayRecord : BibliographicRecord :=
  ⟨"10.1/x", "T", "article", 2020, [], none, none, none⟩

/-! ### Analysis views of the duplicate-matcher tiers

`tierNRaws` is the list of raw results that tier `N` feeds into the
accumulator: empty when that tier does not run.  `find_duplicates` is
proved equal to one accumulation pass over their concatenation. -/

def tier1Raws (client : SearchClient) (st : Settings) (r : BibliographicRecord) :
    List RawObject :=
  if r.doi ≠ "" then client.search_by_property st.anytype_field_doi r.doi 5 else []

def tier2Raws (client : SearchClient) (_st : Settings) (r : BibliographicRecord) :
    List RawObject :=
  if authorNames r ≠ [] then
    client.search_by_text (String.intercalate " " (authorNames r)) 5
  else []

def tier3Raws (client : SearchClient) (st : Settings) (r : BibliographicRecord) :
    List RawObject :=
  if tier1Raws client st r ++ tier2Raws client st r = [] ∧ r.title ≠ "" then
    client.search_by_text r.title 3
  else []

/-! ## Helper lemmas -/

theorem string_data_append (s t : String) : (s ++ t).data = s.data ++ t.data := rfl

theorem string_mk_data (s : String) : String.mk s.data = s := rfl

theorem digitChar_alnum {k : Nat} (hk : k < 10) : isAlnum (digitChar k) = true := by
  interval_cases k <;> decide

theorem digitsGo_alnum : ∀ (f n : Nat), ∀ c ∈ digitsGo f n, isAlnum c = true := by
  intro f
  induction f with
  | zero => intro n c hc; cases n <;> simp [digitsGo] at hc
  | succ f ih =>
    intro n c hc
    cases n with
    | zero => simp [digitsGo] at hc
    | succ m =>
      simp only [digitsGo, List.mem_append, List.mem_singleton] at hc
      rcases hc with hc | hc
      · exact ih _ c hc
      · subst hc; exact digitChar_alnum (Nat.mod_lt _ (by norm_num))

theorem natDigits_alnum : ∀ (n : Nat), ∀ c ∈ natDigits n, isAlnum c = true := by
  intro n c hc
  by_cases h : n = 0
  · simp [natDigits, h] at hc; subst hc; decide
  · simp only [natDigits, if_neg h] at hc
    exact digitsGo_alnum n n c hc

theorem natDigits_ne_nil (n : Nat) : natDigits n ≠ [] := by
  by_cases h : n = 0
  · simp [natDigits, h]
  · obtain ⟨m, rfl⟩ := Nat.exists_eq_succ_of_ne_zero h
    simp [natDigits, digitsGo]

theorem intToString_filter_ne_nil (i : Int) :
    (intToString i).data.filter isAlnum ≠ [] := by
  unfold intToString
  split
  · show (('-' :: natDigits i.natAbs).filter isAlnum) ≠ []
    rw [List.filter_cons_of_neg (by decide),
      List.filter_eq_self.mpr (natDigits_alnum i.natAbs)]
    exact natDigits_ne_nil _
  · show ((natDigits i.toNat).filter isAlnum) ≠ []
    rw [List.filter_eq_self.mpr (natDigits_alnum i.toNat)]
    exact natDigits_ne_nil _

theorem dropWhile_head_false {α : Type} {p : α → Bool} :
    ∀ (l : List α) (c : α) (cs : List α), l.dropWhile p = c :: cs → p c = false := by
  intro l
  induction l with
  | nil => intro c cs h; simp [List.dropWhile] at h
  | cons x xs ih =>
    intro c cs h
    rw [List.dropWhile_cons] at h
    split at h
    · exact ih c cs h
    · cases h; simp_all

theorem lookup_none_of_keys_ge {β : Type} :
    ∀ (t : List (Char × β)) (c : Char), (∀ p ∈ t, 128 ≤ p.1.toNat) →
      c.toNat < 128 → t.lookup c = none := by
  intro t
  induction t with
  | nil => intro c _ _; rfl
  | cons p ps ih =>
    intro c hall hc
    have hp : 128 ≤ p.1.toNat := hall p (by simp)
    have hne : (c == p.1) = false := by
      apply beq_eq_false_iff_ne.mpr
      intro hcp
      rw [hcp] at hc
      omega
    simp only [List.lookup, hne]
    exact ih c (fun q hq => hall q (by simp [hq])) hc

theorem decompTable_keys_ge : ∀ p ∈ decompTable, 128 ≤ p.1.toNat := by decide

theorem decomposeChar_ascii {c : Char} (h : c.toNat < 128) : decomposeChar c = [c] := by
  unfold decomposeChar
  rw [lookup_none_of_keys_ge decompTable c decompTable_keys_ge h]

theorem isMn_ascii {c : Char} (h : c.toNat < 128) : isMn c = false := by
  simp only [isMn, Bool.and_eq_false_iff]
  left
  simpa using by omega

theorem foldChars_mem_ascii : ∀ (l : List Char), ∀ c ∈ foldChars l, isAsciiChar c = true := by
  intro l c hc
  exact (List.mem_filter.mp hc).2

theorem foldChars_ascii_id :
    ∀ (l : List Char), (∀ c ∈ l, isAsciiChar c = true) → foldChars l = l := by
  intro l h
  induction l with
  | nil => rfl
  | cons c cs ih =>
    have hc : c.toNat < 128 := by simpa [isAsciiChar] using h c (by simp)
    have hcs := ih (fun d hd => h d (by simp [hd]))
    simp only [foldChars, nfdChars] at hcs ⊢
    rw [List.map_cons, List.flatten_cons, decomposeChar_ascii hc, List.filter_append,
      List.filter_append]
    have h1 : List.filter isAsciiChar (List.filter (fun c => !isMn c) [c]) = [c] := by
      simp [isMn_ascii hc, isAsciiChar, hc]
    rw [h1, hcs, List.singleton_append]

theorem title_first_word_eq_spec (t : String) : title_first_word t = spec_first_run t := by
  unfold title_first_word spec_first_run
  cases h : t.data.dropWhile (fun c => !isAlnum c) with
  | nil => simp [h]
  | cons c cs =>
    have hc : isAlnum c = true := by
      have := dropWhile_head_false _ _ _ h
      simpa using this
    simp [List.takeWhile_cons, hc]

/-! ## Claim theorems -/

/-- C1. For every `BibliographicRecord`, `citation_key()` equals the
concatenation of the accent-folded family name of the first author (or
`"unknown"` when the authors list is empty), the decimal year, and the
first maximal alphanumeric run of the title (or `"Title"`), with every
character outside `[A-Za-z0-9]` removed; in particular the record with
first author family `"Doe"`, year 2024 and title
`"Understanding Quantum Fields"` has citation key `"Doe2024Understanding"`. -/
theorem citation_key_matches_spec :
    (∀ r : BibliographicRecord, r.citation_key = spec_citation_key r) ∧
    doeRecord.citation_key = "Doe2024Understanding" := by
  constructor
  · intro r
    unfold BibliographicRecord.citation_key spec_citation_key spec_strip_non_alnum
      BibliographicRecord.first_author
    rw [title_first_word_eq_spec]
    cases r.authors <;> rfl
  · decide

/-- C9. Accent folding is idempotent: re-folding an author whose family is
an already folded name changes nothing; folding `"García"` yields
`"Garcia"`; and when the fold pipeline strips everything away,
`family_ascii` falls back to the original family unchanged. -/
theorem family_ascii_idempotent :
    (∀ x : String,
      (Author.mk (Author.mk x none none).family_ascii none none).family_ascii
        = (Author.mk x none none).family_ascii) ∧
    (Author.mk "García" none none).family_ascii = "Garcia" ∧
    (∀ x : String, String.mk (foldChars x.data) = "" →
      (Author.mk x none none).family_ascii = x) := by
  refine ⟨?_, by decide, ?_⟩
  · intro x
    by_cases h : String.mk (foldChars x.data) = ""
    · simp [Author.family_ascii, h]
    · have hfold : foldChars (foldChars x.data) = foldChars x.data :=
        foldChars_ascii_id _ (fun c hc => foldChars_mem_ascii _ c hc)
      simp [Author.family_ascii, h, hfold]
  · intro x h
    simp [Author.family_ascii, h]

/-- C10. `citation_key()` is never the empty string: the decimal digits of
the year survive the final non-alphanumeric strip. -/
theorem citation_key_ne_empty (r : BibliographicRecord) : r.citation_key ≠ "" := by
  unfold BibliographicRecord.citation_key
  intro h
  have hdata : ((match r.authors with
      | [] => "unknown"
      | a :: _ => a.family_ascii) ++ intToString r.year ++ title_first_word r.title).data.filter
      isAlnum = [] := congrArg String.data h
  rw [string_data_append, string_data_append, List.filter_append, List.filter_append] at hdata
  have := List.append_eq_nil.mp hdata
  exact intToString_filter_ne_nil r.year ((List.append_eq_nil.mp this.1).2)

/-- Witness for the fallback branch of the accent-folding claim: a family
name whose fold strips to nothing is returned unchanged. -/
theorem family_ascii_fallback_witness :
    String.mk (foldChars ("Ω" : String).data) = "" ∧
    (Author.mk "Ω" none none).family_ascii = "Ω" :=
  ⟨by decide, family_ascii_idempotent.2.2 "Ω" (by decide)⟩

theorem yearOf_eq_bind (o : Option (List (List Int))) :
    yearOf o = (o.bind List.head?).bind List.head? := by
  cases o with
  | none => rfl
  | some l =>
    cases l with
    | nil => rfl
    | cons h t =>
      cases h with
      | nil => rfl
      | cons y ys => rfl

/-- C6. Year extraction probes `published-print`, `published-online`,
`issued` in that priority order, reads the nested `date-parts` of the
first field that yields a year, and fails with `MetadataRetrievalError`
when none does; `issued` with date-parts `[[2023]]` yields 2023, and a
payload with none of the three fields fails. -/
theorem extract_year_matches_spec :
    (∀ m : CrossrefMessage, extract_year m = spec_extract_year m) ∧
    extract_year ⟨none, none, some [[2023]]⟩ = Except.ok 2023 ∧
    extract_year ⟨none, none, none⟩ =
      Except.error "Year information missing in CrossRef response" := by
  refine ⟨?_, rfl, rfl⟩
  intro m
  unfold extract_year spec_extract_year
  simp only [spec_year_probe, ← yearOf_eq_bind]
  cases yearOf m.publishedPrint <;> cases yearOf m.publishedOnline <;>
    cases yearOf m.issued <;> rfl

/-- C7. With exactly one duplicate candidate, operator input `["u","1"]`
makes the coordinator perform exactly one update on that candidate's
object id (and, when a PDF was supplied, one attach scoped to that id)
and no create; operator input `["c"]` makes it perform exactly one create
and no update. -/
theorem publish_one_candidate_use_or_create (cand : DuplicateCandidate)
    (r : BibliographicRecord) (bib createdId : String) (pdf : Option String) :
    publish_to_anytype (fun _ => [cand]) createdId r bib pdf ["u", "1"]
      = some (PubEvent.update cand.object_id bib :: attachEvents cand.object_id pdf) ∧
    publish_to_anytype (fun _ => [cand]) createdId r bib pdf ["c"]
      = some (PubEvent.create bib :: attachEvents createdId pdf) :=
  ⟨rfl, rfl⟩

/-- C8. Whenever at least one duplicate candidate exists and the prompt
loop resolves the operator's input to abort (an answer `"a"` or
`"abort"`), the coordinator performs no create, update, upload or attach
call and terminates normally with an empty mutation trace. -/
theorem publish_abort_no_mutation (cands : List DuplicateCandidate)
    (createdId : String) (r : BibliographicRecord) (bib : String)
    (pdf : Option String) (inputs rest : List String)
    (hne : cands ≠ [])
    (hprompt : prompt_duplicate_action cands inputs = some (DupAction.abort, rest)) :
    publish_to_anytype (fun _ => cands) createdId r bib pdf inputs = some [] := by
  unfold publish_to_anytype
  rw [if_neg hne, hprompt]

/-- Witness for the abort claim: one candidate, operator answers `"a"`. -/
theorem publish_abort_no_mutation_witness :
    ([⟨"x", none, none, []⟩] : List DuplicateCandidate) ≠ [] ∧
    prompt_duplicate_action [⟨"x", none, none, []⟩] ["a"] = some (DupAction.abort, []) ∧
    publish_to_anytype (fun _ => [⟨"x", none, none, []⟩]) "id0" doeRecord "BIB" none ["a"]
      = some [] :=
  ⟨by simp, rfl,
    publish_abort_no_mutation [⟨"x", none, none, []⟩] "id0" doeRecord "BIB" none ["a"] []
      (by simp) rfl⟩

theorem string_append_assoc (a b c : String) : a ++ b ++ c = a ++ (b ++ c) := by
  rw [← string_mk_data (a ++ b ++ c), ← string_mk_data (a ++ (b ++ c)),
    string_data_append, string_data_append, string_data_append, string_data_append,
    List.append_assoc]

theorem bibtex_line_assoc (kv : String × String) :
    ("  " ++ kv.1 ++ " = \x7b" ++ kv.2 ++ "\x7d") ++ ","
      = "  " ++ kv.1 ++ " = \x7b" ++ kv.2 ++ "\x7d," := by
  rw [string_append_assoc]
  exact congrArg _ (by decide)

theorem filterMap_comma (l : List (String × String)) :
    l.filterMap
      (fun kv => if kv.2 = "" then none
        else some ("  " ++ kv.1 ++ " = \x7b" ++ kv.2 ++ "\x7d,"))
    = (l.filter (fun kv => kv.2 ≠ "")).map
        (fun kv => ("  " ++ kv.1 ++ " = \x7b" ++ kv.2 ++ "\x7d") ++ ",") := by
  induction l with
  | nil => rfl
  | cons kv tl ih =>
    by_cases h : kv.2 = ""
    · simp [List.filterMap_cons, List.filter_cons, h, ih]
    · simp [List.filterMap_cons, List.filter_cons, h, ih, bibtex_line_assoc]

theorem fields_filter_eq (r : BibliographicRecord) :
    (bibtexFieldPairs r).filter (fun kv => kv.2 ≠ "") = spec_fields r := by
  unfold bibtexFieldPairs spec_fields
  cases r.journal with
  | none =>
    cases r.publisher with
    | none => rfl
    | some p =>
      by_cases hb : r.entry_type = "book" <;> by_cases hpe : p = "" <;>
        simp [List.filter_append, List.filter_cons, hb, hpe]
  | some j =>
    cases r.publisher with
    | none =>
      by_cases hje : j = "" <;> simp [List.filter_append, List.filter_cons, hje]
    | some p =>
      by_cases hb : r.entry_type = "book" <;> by_cases hpe : p = "" <;>
        by_cases hje : j = "" <;>
        simp [List.filter_append, List.filter_cons, hb, hpe, hje]

theorem rstripComma_tail (s : String) :
    rstripComma ((s ++ "\x7d") ++ ",") = s ++ "\x7d" := by
  unfold rstripComma
  rw [string_data_append, string_data_append]
  have h7d : ("\x7d" : String).data = [Char.ofNat 125] := by decide
  have hcm : ("," : String).data = [','] := by decide
  rw [h7d, hcm]
  have hrev : ((s.data ++ [Char.ofNat 125]) ++ [',']).reverse
      = ',' :: Char.ofNat 125 :: s.data.reverse := by simp
  rw [hrev, List.dropWhile_cons_of_pos (by decide), List.dropWhile_cons_of_neg (by decide),
    List.reverse_cons, List.reverse_reverse]
  rw [show s.data ++ [Char.ofNat 125] = (s ++ "\x7d").data from by
    rw [string_data_append, h7d]]

theorem modifyLast_comma : ∀ (ls : List String),
    (∀ l ∈ ls, rstripComma (l ++ ",") = l) →
    modifyLast rstripComma (ls.map (· ++ ",")) = commaSeparated ls := by
  intro ls
  induction ls with
  | nil => intro _; rfl
  | cons x xs ih =>
    intro h
    cases xs with
    | nil =>
      show modifyLast rstripComma [x ++ ","] = commaSeparated [x]
      simp [modifyLast, commaSeparated, h x (by simp)]
    | cons y ys =>
      have hih := ih (fun l hl => h l (by simp [hl]))
      simp only [List.map_cons] at hih ⊢
      show (x ++ ",") :: modifyLast rstripComma ((y ++ ",") :: ys.map (· ++ ",")) = _
      rw [hih]
      rfl

theorem generate_bibtex_eq_spec (r : BibliographicRecord) :
    generate_bibtex r = spec_bibtex r := by
  unfold generate_bibtex bibtex_lines spec_bibtex
  apply congrArg (String.intercalate "\n")
  rw [filterMap_comma, fields_filter_eq]
  rw [show (fun kv : String × String => ("  " ++ kv.1 ++ " = \x7b" ++ kv.2 ++ "\x7d") ++ ",")
      = ((· ++ ",") ∘ (fun kv : String × String => "  " ++ kv.1 ++ " = \x7b" ++ kv.2 ++ "\x7d"))
      from rfl]
  rw [← List.map_map]
  generalize hsf : (spec_fields r).map
    (fun kv : String × String => "  " ++ kv.1 ++ " = \x7b" ++ kv.2 ++ "\x7d") = ms
  have hms : ∀ l ∈ ms, rstripComma (l ++ ",") = l := by
    intro l hl
    rw [← hsf] at hl
    obtain ⟨kv, _, rfl⟩ := List.mem_map.mp hl
    exact rstripComma_tail _
  cases ms with
  | nil => rfl
  | cons m mtl =>
    have hmc := modifyLast_comma (m :: mtl) hms
    simp only [List.map_cons] at hmc ⊢
    split
    · show (("@" ++ r.entry_type ++ "\x7b" ++ r.citation_key ++ ",")
          :: modifyLast rstripComma ((m ++ ",") :: mtl.map (fun x => x ++ ","))) ++ ["\x7d"] = _
      rw [hmc]
    · rename_i hlen
      exact absurd (by simp) hlen

/-- C2. The serialized bibliography entry emits present fields in the
fixed order title, author, year, doi, journal, publisher, one
`key = {value},` line per present field with the trailing comma removed
from the final field line; empty fields are omitted; publisher appears
only when present and the entry type is `book`; the title is wrapped in
double braces, and the Doe/Smith record contains the exact author line. -/
theorem bibtex_matches_spec :
    (∀ r : BibliographicRecord, generate_bibtex r = spec_bibtex r) ∧
    "  author = \x7bDoe, Jane and Smith, John\x7d," ∈ bibtex_lines doeSmithRecord ∧
    "  title = \x7b\x7b\x7b Understanding Quantum Fields \x7d\x7d\x7d," ∈
      bibtex_lines doeSmithRecord :=
  ⟨generate_bibtex_eq_spec, by decide, by decide⟩

theorem extend_cons (st : Settings) (acc : List DuplicateCandidate × List String)
    (obj : RawObject) (rest : List RawObject) :
    extendCandidates st acc (obj :: rest) = extendCandidates st (extendStep st acc obj) rest := rfl

theorem extend_fst_expand (st : Settings) :
    ∀ (raws : List RawObject) (acc : List DuplicateCandidate × List String),
      ∃ t, (extendCandidates st acc raws).1 = acc.1 ++ t := by
  intro raws
  induction raws with
  | nil => intro acc; exact ⟨[], by simp [extendCandidates]⟩
  | cons obj rest ih =>
    intro acc
    rw [extend_cons]
    obtain ⟨t, ht⟩ := ih (extendStep st acc obj)
    rw [ht]
    by_cases hmem : pyStr obj.id ∈ acc.2
    · exact ⟨t, by simp [extendStep, hmem]⟩
    · exact ⟨candidateOf st obj (pyStr obj.id) :: t, by simp [extendStep, hmem]⟩

theorem extend_fst_ne_nil (st : Settings) (acc : List DuplicateCandidate × List String)
    (raws : List RawObject) (h : acc.1 ≠ []) : (extendCandidates st acc raws).1 ≠ [] := by
  obtain ⟨t, ht⟩ := extend_fst_expand st raws acc
  rw [ht]
  simp [h]

theorem extend_from_nil (st : Settings) (raws : List RawObject) :
    (extendCandidates st ([], []) raws).1 = [] ↔ raws = [] := by
  constructor
  · intro h
    cases raws with
    | nil => rfl
    | cons obj rest =>
      exfalso
      rw [extend_cons] at h
      have hstep : extendStep st (([] : List DuplicateCandidate), ([] : List String)) obj
          = ([candidateOf st obj (pyStr obj.id)], [pyStr obj.id]) := by
        simp [extendStep]
      rw [hstep] at h
      obtain ⟨t, ht⟩ := extend_fst_expand st rest
        ([candidateOf st obj (pyStr obj.id)], [pyStr obj.id])
      rw [ht] at h
      simp at h
  · rintro rfl; rfl

theorem extend_invariant (st : Settings) :
    ∀ (raws : List RawObject) (acc : List DuplicateCandidate × List String),
      acc.2 = acc.1.map DuplicateCandidate.object_id → acc.2.Nodup →
      (extendCandidates st acc raws).2
          = (extendCandidates st acc raws).1.map DuplicateCandidate.object_id ∧
        (extendCandidates st acc raws).2.Nodup := by
  intro raws
  induction raws with
  | nil => intro acc h1 h2; exact ⟨h1, h2⟩
  | cons obj rest ih =>
    intro acc h1 h2
    rw [extend_cons]
    by_cases hmem : pyStr obj.id ∈ acc.2
    · have hstep : extendStep st acc obj = acc := by simp [extendStep, hmem]
      rw [hstep]; exact ih acc h1 h2
    · have hstep : extendStep st acc obj
          = (acc.1 ++ [candidateOf st obj (pyStr obj.id)], acc.2 ++ [pyStr obj.id]) := by
        simp [extendStep, hmem]
      rw [hstep]
      apply ih
      · simp [h1, candidateOf]
      · simp [List.nodup_append, h2, hmem]

theorem extend_snd_sub (st : Settings) :
    ∀ (raws : List RawObject) (acc : List DuplicateCandidate × List String),
      acc.2 ⊆ (extendCandidates st acc raws).2 := by
  intro raws
  induction raws with
  | nil => intro acc; exact List.Subset.refl _
  | cons obj rest ih =>
    intro acc
    rw [extend_cons]
    refine List.Subset.trans ?_ (ih _)
    by_cases hmem : pyStr obj.id ∈ acc.2
    · have hstep : extendStep st acc obj = acc := by simp [extendStep, hmem]
      rw [hstep]
      exact List.Subset.refl _
    · have hstep : extendStep st acc obj
          = (acc.1 ++ [candidateOf st obj (pyStr obj.id)], acc.2 ++ [pyStr obj.id]) := by
        simp [extendStep, hmem]
      rw [hstep]
      exact List.subset_append_left _ _

theorem extend_mem_snd (st : Settings) :
    ∀ (raws : List RawObject) (acc : List DuplicateCandidate × List String),
      ∀ obj ∈ raws, pyStr obj.id ∈ (extendCandidates st acc raws).2 := by
  intro raws
  induction raws with
  | nil => intro acc obj h; simp at h
  | cons o rest ih =>
    intro acc obj h
    rw [extend_cons]
    rcases List.mem_cons.mp h with rfl | h2
    · apply extend_snd_sub st rest (extendStep st acc obj)
      by_cases hmem : pyStr obj.id ∈ acc.2
      · simp [extendStep, hmem]
      · simp [extendStep, hmem]
    · exact ih _ obj h2

/-- C3. The duplicate matcher issues the DOI property search (limit 5) iff
the record's DOI is non-empty, the author free-text search (limit 5, on
the folded lower-cased family names joined by spaces) iff that name list
is non-empty regardless of tier-1 results, and the title free-text search
(limit 3) iff tiers 1–2 produced zero candidates and the title is
non-empty. -/
theorem find_duplicates_search_tiers (client : SearchClient) (st : Settings)
    (r : BibliographicRecord) :
    (find_duplicates_trace client st r).2 =
      (if r.doi ≠ "" then [SearchCall.byProperty st.anytype_field_doi r.doi 5] else [])
      ++ (if authorNames r ≠ [] then
            [SearchCall.byText (String.intercalate " " (authorNames r)) 5] else [])
      ++ (if (r.doi ≠ "" → client.search_by_property st.anytype_field_doi r.doi 5 = [])
            ∧ (authorNames r ≠ [] →
                client.search_by_text (String.intercalate " " (authorNames r)) 5 = [])
            ∧ r.title ≠ "" then [SearchCall.byText r.title 3] else []) := by
  by_cases hd : r.doi = "" <;> by_cases ha : authorNames r = []
  · -- no DOI tier, no author tier: candidates stay empty
    by_cases ht : r.title = "" <;>
      simp [find_duplicates_trace, hd, ha, ht, extendCandidates]
  · -- only the author tier runs
    by_cases hares : client.search_by_text (String.intercalate " " (authorNames r)) 5 = []
    · by_cases ht : r.title = "" <;>
        simp [find_duplicates_trace, hd, ha, hares, ht, extendCandidates]
    · have hne := (not_iff_not.mpr (extend_from_nil st
        (client.search_by_text (String.intercalate " " (authorNames r)) 5))).mpr hares
      simp only [extendCandidates] at hne
      simp [find_duplicates_trace, hd, ha, hares, hne, extendCandidates]
  · -- only the DOI tier runs
    by_cases hdres : client.search_by_property st.anytype_field_doi r.doi 5 = []
    · by_cases ht : r.title = "" <;>
        simp [find_duplicates_trace, hd, ha, hdres, ht, extendCandidates]
    · have hne := (not_iff_not.mpr (extend_from_nil st
        (client.search_by_property st.anytype_field_doi r.doi 5))).mpr hdres
      simp only [extendCandidates] at hne
      simp [find_duplicates_trace, hd, ha, hdres, hne, extendCandidates]
  · -- both identifier tiers run
    by_cases hdres : client.search_by_property st.anytype_field_doi r.doi 5 = []
    · by_cases hares : client.search_by_text (String.intercalate " " (authorNames r)) 5 = []
      · by_cases ht : r.title = "" <;>
          simp [find_duplicates_trace, hd, ha, hdres, hares, ht, extendCandidates]
      · have hne := (not_iff_not.mpr (extend_from_nil st
          (client.search_by_text (String.intercalate " " (authorNames r)) 5))).mpr hares
        simp only [extendCandidates] at hne
        simp [find_duplicates_trace, hd, ha, hdres, hares, extendCandidates, hne]
    · have hinner := (not_iff_not.mpr (extend_from_nil st
        (client.search_by_property st.anytype_field_doi r.doi 5))).mpr hdres
      have hne := extend_fst_ne_nil st _
        (client.search_by_text (String.intercalate " " (authorNames r)) 5) hinner
      simp only [extendCandidates] at hne
      simp [find_duplicates_trace, hd, ha, hdres, hne, extendCandidates]

theorem extend_append (st : Settings) (acc : List DuplicateCandidate × List String)
    (l1 l2 : List RawObject) :
    extendCandidates st acc (l1 ++ l2) = extendCandidates st (extendCandidates st acc l1) l2 :=
  List.foldl_append (extendStep st) acc l1 l2

theorem find_duplicates_chain (client : SearchClient) (st : Settings)
    (r : BibliographicRecord) :
    find_duplicates client st r =
      (extendCandidates st ([], [])
        (tier1Raws client st r ++ (tier2Raws client st r ++ tier3Raws client st r))).1 := by
  by_cases hd : r.doi = "" <;> by_cases ha : authorNames r = []
  · by_cases ht : r.title = "" <;>
      simp [find_duplicates, find_duplicates_trace, tier1Raws, tier2Raws, tier3Raws,
        hd, ha, ht, extendCandidates]
  · by_cases hares : client.search_by_text (String.intercalate " " (authorNames r)) 5 = []
    · by_cases ht : r.title = "" <;>
        simp [find_duplicates, find_duplicates_trace, tier1Raws, tier2Raws, tier3Raws,
          hd, ha, hares, ht, extendCandidates]
    · have hne := (not_iff_not.mpr (extend_from_nil st
        (client.search_by_text (String.intercalate " " (authorNames r)) 5))).mpr hares
      simp only [extendCandidates] at hne
      simp [find_duplicates, find_duplicates_trace, tier1Raws, tier2Raws, tier3Raws,
        hd, ha, hares, hne, extendCandidates]
  · by_cases hdres : client.search_by_property st.anytype_field_doi r.doi 5 = []
    · by_cases ht : r.title = "" <;>
        simp [find_duplicates, find_duplicates_trace, tier1Raws, tier2Raws, tier3Raws,
          hd, ha, hdres, ht, extendCandidates]
    · have hne := (not_iff_not.mpr (extend_from_nil st
        (client.search_by_property st.anytype_field_doi r.doi 5))).mpr hdres
      simp only [extendCandidates] at hne
      simp [find_duplicates, find_duplicates_trace, tier1Raws, tier2Raws, tier3Raws,
        hd, ha, hdres, hne, extendCandidates]
  · by_cases hdres : client.search_by_property st.anytype_field_doi r.doi 5 = []
    · by_cases hares : client.search_by_text (String.intercalate " " (authorNames r)) 5 = []
      · by_cases ht : r.title = "" <;>
          simp [find_duplicates, find_duplicates_trace, tier1Raws, tier2Raws, tier3Raws,
            hd, ha, hdres, hares, ht, extendCandidates]
      · have hne := (not_iff_not.mpr (extend_from_nil st
          (client.search_by_text (String.intercalate " " (authorNames r)) 5))).mpr hares
        simp only [extendCandidates] at hne
        simp [find_duplicates, find_duplicates_trace, tier1Raws, tier2Raws, tier3Raws,
          hd, ha, hdres, hares, hne, extendCandidates]
    · have hinner := (not_iff_not.mpr (extend_from_nil st
        (client.search_by_property st.anytype_field_doi r.doi 5))).mpr hdres
      have hne := extend_fst_ne_nil st _
        (client.search_by_text (String.intercalate " " (authorNames r)) 5) hinner
      simp only [extendCandidates] at hne hinner
      simp [find_duplicates, find_duplicates_trace, tier1Raws, tier2Raws, tier3Raws,
        hd, ha, hdres, hne, hinner, extendCandidates]

/-- C4. No remote object id appears twice among the candidates returned
by `find_duplicates`; in particular an id returned both by the DOI
property tier and by the author text tier yields exactly one candidate. -/
theorem find_duplicates_ids_nodup (client : SearchClient) (st : Settings)
    (r : BibliographicRecord) :
    ((find_duplicates client st r).map DuplicateCandidate.object_id).Nodup ∧
    (∀ o₁ o₂ : RawObject, r.doi ≠ "" →
      o₁ ∈ client.search_by_property st.anytype_field_doi r.doi 5 →
      authorNames r ≠ [] →
      o₂ ∈ client.search_by_text (String.intercalate " " (authorNames r)) 5 →
      pyStr o₂.id = pyStr o₁.id →
      ((find_duplicates client st r).map DuplicateCandidate.object_id).count (pyStr o₁.id)
        = 1) := by
  have hchain := find_duplicates_chain client st r
  obtain ⟨hmap, hnd⟩ := extend_invariant st
    (tier1Raws client st r ++ (tier2Raws client st r ++ tier3Raws client st r))
    ([], []) rfl List.nodup_nil
  constructor
  · rw [hchain, ← hmap]
    exact hnd
  · intro o₁ o₂ hdne h₁ hane h₂ heq
    have hmem : pyStr o₁.id ∈ (extendCandidates st ([], [])
        (tier1Raws client st r ++ (tier2Raws client st r ++ tier3Raws client st r))).2 := by
      apply extend_mem_snd
      have ht1 : o₁ ∈ tier1Raws client st r := by
        rw [tier1Raws, if_pos hdne]; exact h₁
      exact List.mem_append_left _ ht1
    rw [hchain, ← hmap]
    exact List.count_eq_one_of_mem hnd hmem

/-- Witness for the shared-id part of the dedup claim: one object with id
`"x"` returned by both the DOI tier and the author tier appears exactly
once. -/
theorem find_duplicates_ids_nodup_witness :
    (("10.1/x" : String) ≠ "" ∧
      authorNames ⟨"10.1/x", "T", "article", 2020, [⟨"Doe", none, none⟩], none, none, none⟩
        ≠ []) ∧
    ((find_duplicates
        ⟨fun _ _ _ => [⟨some "x", some "A", none, some []⟩],
         fun _ _ => [⟨some "x", some "A", none, some []⟩]⟩
        sampleSettings
        ⟨"10.1/x", "T", "article", 2020, [⟨"Doe", none, none⟩], none, none, none⟩).map
      DuplicateCandidate.object_id).count "x" = 1 := by
  refine ⟨⟨by decide, by decide⟩, ?_⟩
  have h := (find_duplicates_ids_nodup
    ⟨fun _ _ _ => [⟨some "x", some "A", none, some []⟩],
     fun _ _ => [⟨some "x", some "A", none, some []⟩]⟩
    sampleSettings
    ⟨"10.1/x", "T", "article", 2020, [⟨"Doe", none, none⟩], none, none, none⟩).2
    ⟨some "x", some "A", none, some []⟩ ⟨some "x", some "A", none, some []⟩
    (by decide) (by decide) (by decide) (by decide) rfl
  exact h

/-- C5 fails on the code: a raw result with no id field is not dropped;
`str(obj.get("id"))` turns it into a candidate with object id `"None"`. -/
theorem missing_id_not_dropped :
    (find_duplicates strayClient sampleSettings strayRecord).length = 1 ∧
    (find_duplicates strayClient sampleSettings strayRecord).map
      DuplicateCandidate.object_id = ["None"] := by
  constructor <;> decide

/-- C5 (amended). A raw result with no id field yields a candidate whose
object id is the string `"None"` (the Python `str(None)`), without any
error: with a DOI-only record and a property search returning exactly
that result, `find_duplicates` returns exactly that candidate. -/
theorem missing_id_yields_none_candidate (st : Settings) (r : BibliographicRecord)
    (obj : RawObject) (client : SearchClient)
    (hid : obj.id = none) (hdoi : r.doi ≠ "") (hauth : r.authors = [])
    (hprop : client.search_by_property st.anytype_field_doi r.doi 5 = [obj]) :
    find_duplicates client st r = [candidateOf st obj "None"] := by
  have hnames : authorNames r = [] := by unfold authorNames; rw [hauth]; rfl
  have hoid : pyStr obj.id = "None" := by rw [hid]; rfl
  simp [find_duplicates, find_duplicates_trace, hdoi, hnames, hprop, extendCandidates,
    extendStep, hoid]

/-- Witness for the amended missing-id claim at the concrete stray
client, record and settings. -/
theorem missing_id_yields_none_candidate_witness :
    (strayObject.id = none ∧ strayRecord.doi ≠ "" ∧ strayRecord.authors = [] ∧
      strayClient.search_by_property sampleSettings.anytype_field_doi strayRecord.doi 5
        = [strayObject]) ∧
    find_duplicates strayClient sampleSettings strayRecord
      = [candidateOf sampleSettings strayObject "None"] :=
  ⟨⟨rfl, by decide, rfl, rfl⟩,
    missing_id_yields_none_candidate sampleSettings strayRecord strayObject strayClient
      rfl (by decide) rfl rfl⟩

end AnytypeBib
